import Mathlib

/-!
Shallow embedding of the core algorithms of `backend/main.py` of the
simple-pdf repository: the page-selector parsing and range filtering of
`split_pdf`, the watermark placement, tiling, scaling and alpha arithmetic
of `add_watermark`, and the primary/fallback control flow of
`compress_pdf` with `compress_with_ghostscript` / `compress_with_pypdf2`.

Python machine behaviour is modelled exactly where it is arithmetic on
ints (`//` is `Int.fdiv`, `int()` truncation toward zero is `Int.tdiv` of
numerator by denominator) and idealised to exact rational arithmetic where
the source uses floats.  Strings are handled through their character
lists, with `str.strip`, `str.split` and `int(str)` (ASCII digits,
optional sign, underscore separators) modelled explicitly.
-/

/-- Characters treated as whitespace by Python `str.strip()` (ASCII part). -/
def isPySpace (c : Char) : Bool :=
  c = ' ' || c = '\t' || c = '\n' || c = '\r' || c = '\x0b' || c = '\x0c'

/-- Python `str.strip()` on a character list. -/
def stripChars (l : List Char) : List Char :=
  ((l.dropWhile isPySpace).reverse.dropWhile isPySpace).reverse

/-- Helper for `splitOnChar`: accumulate the current piece (reversed). -/
def splitOnCharAux (sep : Char) (acc : List Char) : List Char → List (List Char)
  | [] => [acc.reverse]
  | c :: cs =>
    if c = sep then acc.reverse :: splitOnCharAux sep [] cs
    else splitOnCharAux sep (c :: acc) cs

/-- Python `str.split(sep)` for a single-character separator: every
occurrence of `sep` ends a piece, and empty pieces are kept. -/
def splitOnChar (sep : Char) (l : List Char) : List (List Char) :=
  splitOnCharAux sep [] l

/-- Numeric value of an ASCII digit. -/
def digitVal (c : Char) : Nat := c.toNat - 48

/-- Digit-run parser for Python `int()`: after the first digit, further
digits may be separated by single underscores. -/
def pyIntDigitsAux (acc : Nat) : List Char → Option Nat
  | [] => some acc
  | c :: cs =>
    if c.isDigit then pyIntDigitsAux (10 * acc + digitVal c) cs
    else if c = '_' then
      match cs with
      | [] => none
      | d :: ds => if d.isDigit then pyIntDigitsAux (10 * acc + digitVal d) ds else none
    else none

/-- A nonempty digit run (Python `int()` digit grammar, ASCII digits). -/
def pyIntDigits : List Char → Option Nat
  | [] => none
  | c :: cs => if c.isDigit then pyIntDigitsAux (digitVal c) cs else none

/-- Python `int(s)` on a string: strip whitespace, optional single sign,
then a digit run; `none` models a raised `ValueError`. -/
def pyInt (l : List Char) : Option Int :=
  match stripChars l with
  | '+' :: cs => (pyIntDigits cs).map (fun n => (n : Int))
  | '-' :: cs => (pyIntDigits cs).map (fun n => -(n : Int))
  | cs => (pyIntDigits cs).map (fun n => (n : Int))

/-- Python `list(range(a, b))` on ints. -/
def pyRangeInt (a b : Int) : List Int :=
  (List.range (b - a).toNat).map (fun (k : Nat) => a + (k : Int))

/-- Python `range(0, stop, step)` on naturals for a positive `step`. -/
def pyRangeStep (stop step : Nat) : List Nat :=
  (List.range ((stop + step - 1) / step)).map (fun k => k * step)

/-- Python `int()` truncation toward zero applied to an exact rational. -/
def ratTrunc (q : ℚ) : Int := Int.tdiv q.num (q.den : Int)

/-! ## `split_pdf`: page-selector parsing and range filtering -/

/-- Error exits of the parsing and extraction phases of `split_pdf`; each
constructor corresponds to one `HTTPException(400, ...)` raise site. -/
inductive SplitError where
  /-- `"No pages specified"`: the selector is empty or whitespace-only. -/
  | noPagesSpecified
  /-- `"Invalid page range '{part}'"`: `ValueError` while converting the
  pieces of a `-`-token to ints (wrong piece count or non-numeric piece). -/
  | valueErrorRange (tok : List Char)
  /-- `"Page numbers must be >= 1"` for a range token. -/
  | pageNumberBelowOneRange (tok : List Char)
  /-- `"Invalid range (start > end)"`. -/
  | startGreaterThanEnd (tok : List Char)
  /-- `"Invalid page number '{part}'"`: `ValueError` converting a bare token. -/
  | valueErrorSingle (tok : List Char)
  /-- `"Page number must be >= 1"` for a bare token. -/
  | pageNumberBelowOneSingle (tok : List Char)
  /-- `"No valid pages to extract"`: parsing produced zero groups. -/
  | noValidGroups
  /-- `"No pages could be extracted"`: range filtering left zero files. -/
  | noPagesExtracted
  deriving DecidableEq

/-- One nonempty comma-token of the selector, as handled by the loop body
of `split_pdf`: a token containing `-` is parsed as `start-end`, any other
token as a bare page number.  Returns the group label and its 0-based
page indices. -/
def parseTok (t : List Char) : Except SplitError (String × List Int) :=
  if t.contains '-' then
    match splitOnChar '-' t with
    | [a, b] =>
      match pyInt a, pyInt b with
      | some x, some y =>
        if x < 1 ∨ y < 1 then .error (.pageNumberBelowOneRange t)
        else if x > y then .error (.startGreaterThanEnd t)
        else .ok (s!"pages_{x}-{y}", pyRangeInt (x - 1) y)
      | _, _ => .error (.valueErrorRange t)
    | _ => .error (.valueErrorRange t)
  else
    match pyInt t with
    | some n =>
      if n < 1 then .error (.pageNumberBelowOneSingle t)
      else .ok (s!"page_{n}", [n - 1])
    | none => .error (.valueErrorSingle t)

/-- The token loop of `split_pdf`: empty tokens are skipped, the first
invalid token raises, and groups are accumulated in token order. -/
def parseGroupsAux : List (List Char) → Except SplitError (List (String × List Int))
  | [] => .ok []
  | t :: rest =>
    if t = [] then parseGroupsAux rest
    else
      match parseTok t with
      | .error e => .error e
      | .ok g =>
        match parseGroupsAux rest with
        | .error e => .error e
        | .ok gs => .ok (g :: gs)

/-- The parsing phase of `split_pdf` (lines 280–315): reject an empty or
whitespace-only selector, split on commas, strip and parse each token,
and reject a selector that produced zero groups. -/
def parsePages (pages : String) : Except SplitError (List (String × List Int)) :=
  if stripChars pages.data = [] then .error .noPagesSpecified
  else
    match parseGroupsAux ((splitOnChar ',' pages.data).map stripChars) with
    | .error e => .error e
    | .ok [] => .error .noValidGroups
    | .ok gs => .ok gs

/-- The in-range test `0 <= page_idx < len(reader.pages)` of `split_pdf`. -/
def inRange (totalPages : Int) (i : Int) : Bool :=
  decide (0 ≤ i) && decide (i < totalPages)

/-- Output file naming of `split_pdf` (lines 336–340), applied to the
1-based surviving page numbers of one group. -/
def outputFilename (validPages : List Int) : String :=
  match validPages with
  | [] => ""
  | [p] => s!"page_{p}.pdf"
  | p :: rest =>
    let l := rest.getLastD p
    s!"pages_{p}-{l}.pdf"

/-- The extraction loop of `split_pdf` (lines 320–346): per group, keep
only in-range indices, drop a group whose valid list is empty, and name
the produced file from the surviving 1-based page numbers. -/
def splitOutputs (totalPages : Int) (groups : List (String × List Int)) :
    List (String × List Int) :=
  groups.filterMap (fun g =>
    let valid := g.2.filter (inRange totalPages)
    if valid = [] then none
    else some (outputFilename (valid.map (fun i => i + 1)), valid))

/-- The whole page-selection pipeline of `split_pdf`: parse, filter each
group against the page count, and fail when no file was generated.  The
result lists, per output file, its name and the extracted page indices. -/
def split_pdf (pages : String) (totalPages : Int) :
    Except SplitError (List (String × List Int)) :=
  match parsePages pages with
  | .error e => .error e
  | .ok gs =>
    match splitOutputs totalPages gs with
    | [] => .error .noPagesExtracted
    | out :: outs => .ok (out :: outs)

/-- Token validity in the words of the specification: a bare positive
integer, or a `start-end` pair of positive integers with
`start ≤ end`.  Used to compare the parser's accept set with the spec. -/
def specValidToken (t : List Char) : Bool :=
  if t.contains '-' then
    match splitOnChar '-' t with
    | [a, b] =>
      match pyInt a, pyInt b with
      | some x, some y => decide (1 ≤ x) && decide (x ≤ y)
      | _, _ => false
    | _ => false
  else
    match pyInt t with
    | some n => decide (1 ≤ n)
    | none => false

/-- Range filtering in the words of the specification: per group drop the
indices outside `[0, totalPages)`, then drop groups left empty. -/
def specFilteredIndexSets (totalPages : Int) (groups : List (String × List Int)) :
    List (List Int) :=
  (groups.map (fun g => g.2.filter (inRange totalPages))).filter (fun v => !v.isEmpty)

/-! ## `add_watermark`: placement, tiling, scaling, alpha -/

/-- The `WatermarkPosition` enum of `main.py`. -/
inductive WatermarkPosition where
  | center
  | topLeft
  | topRight
  | bottomLeft
  | bottomRight
  | tile
  deriving DecidableEq

/-- Non-tile watermark placement of `add_watermark` (identical if-chains
at lines 1147–1161 for text and 1213–1227 for images): given the page
raster size and the content size, the draw origin in pixels.  Python `//`
is floor division, `Int.fdiv`.  `tile` draws a grid instead of a single
box and yields no single origin. -/
def placementXY (imgWidth imgHeight contentWidth contentHeight : Int)
    (pos : WatermarkPosition) : Option (Int × Int) :=
  match pos with
  | .center => some ((imgWidth - contentWidth).fdiv 2, (imgHeight - contentHeight).fdiv 2)
  | .topLeft => some (50, 50)
  | .topRight => some (imgWidth - contentWidth - 50, 50)
  | .bottomLeft => some (50, imgHeight - contentHeight - 50)
  | .bottomRight => some (imgWidth - contentWidth - 50, imgHeight - contentHeight - 50)
  | .tile => none

/-- The tile grid of `add_watermark`: spacing is content size plus a gap,
and draw origins are produced by
`for row in range(0, imgHeight + ySpacing, ySpacing):
   for col in range(0, imgWidth + xSpacing, xSpacing)` —
listed here as `(col, row)` pairs in drawing order. -/
def tileOrigins (imgWidth imgHeight contentWidth contentHeight gap : Nat) :
    List (Nat × Nat) :=
  let xSpacing := contentWidth + gap
  let ySpacing := contentHeight + gap
  (pyRangeStep (imgHeight + ySpacing) ySpacing).flatMap (fun row =>
    (pyRangeStep (imgWidth + xSpacing) xSpacing).map (fun col => (col, row)))

/-- Text tiling (line 1164): `x_spacing = text_width + 100`. -/
def textTileOrigins (imgWidth imgHeight textWidth textHeight : Nat) : List (Nat × Nat) :=
  tileOrigins imgWidth imgHeight textWidth textHeight 100

/-- Image tiling (line 1230): `x_spacing = new_width + 50`. -/
def imageTileOrigins (imgWidth imgHeight newWidth newHeight : Nat) : List (Nat × Nat) :=
  tileOrigins imgWidth imgHeight newWidth newHeight 50

/-- Glyph alpha of a text watermark (lines 1166, 1177):
`alpha = int(255 * opacity)`. -/
def textAlpha (opacity : ℚ) : Int := ratTrunc (255 * opacity)

/-- Per-pixel alpha of an image watermark (line 1209): each source alpha
value `p` becomes `int(p * opacity)`. -/
def imagePixelAlpha (opacity : ℚ) (p : Nat) : Int := ratTrunc ((p : ℚ) * opacity)

/-- `max_width = int(img_width * 0.3)` (line 1193). -/
def imageMaxWidth (imgWidth : Nat) : Int := ratTrunc ((imgWidth : ℚ) * (3 / 10))

/-- `max_height = int(img_height * 0.3)` (line 1194). -/
def imageMaxHeight (imgHeight : Nat) : Int := ratTrunc ((imgHeight : ℚ) * (3 / 10))

/-- `ratio = min(max_width / wm_width, max_height / wm_height, 1.0)`
(line 1197), on exact rationals. -/
def imageRatio (imgWidth imgHeight wmWidth wmHeight : Nat) : ℚ :=
  min (min ((imageMaxWidth imgWidth : ℚ) / (wmWidth : ℚ))
           ((imageMaxHeight imgHeight : ℚ) / (wmHeight : ℚ))) 1

/-- `new_width = int(wm_width * ratio)` (line 1198). -/
def imageNewWidth (imgWidth imgHeight wmWidth wmHeight : Nat) : Int :=
  ratTrunc ((wmWidth : ℚ) * imageRatio imgWidth imgHeight wmWidth wmHeight)

/-- `new_height = int(wm_height * ratio)` (line 1199). -/
def imageNewHeight (imgWidth imgHeight wmWidth wmHeight : Nat) : Int :=
  ratTrunc ((wmHeight : ℚ) * imageRatio imgWidth imgHeight wmWidth wmHeight)

/-! ## `compress_pdf`: primary/fallback strategy -/

/-- Observable behaviour of the external Ghostscript collaborator for one
invocation: whether the binary is on `PATH`, whether the 120-second
subprocess budget expired, the exit status, and whether the output file
exists afterwards. -/
structure GsEnv where
  gsInstalled : Bool
  gsTimedOut : Bool
  gsExitCode : Int
  gsOutputExists : Bool

/-- The `timeout=120` subprocess budget of `compress_with_ghostscript`. -/
def gsTimeoutSeconds : Nat := 120

/-- `compress_with_ghostscript` (lines 387–423): `False` when the binary
is missing, when `subprocess.run` raises (timeout included), or when the
exit status is non-zero or the output file is absent. -/
def compress_with_ghostscript (e : GsEnv) : Bool :=
  if !e.gsInstalled then false
  else if e.gsTimedOut then false
  else decide (e.gsExitCode = 0) && e.gsOutputExists

/-- `compress_with_pypdf2` (lines 425–443): the in-process structural
rewrite; succeeds or fails as the collaborator does. -/
def compress_with_pypdf2 (pypdfSucceeds : Bool) : Bool := pypdfSucceeds

/-- Which compressor produced the returned file. -/
inductive CompressMethod where
  | ghostscript
  | pypdf2
  deriving DecidableEq

/-- The failure exit of `compress_pdf`: `HTTPException(500, "Compression
failed: both Ghostscript and PyPDF2 failed")`. -/
inductive CompressError where
  | compressionFailed
  deriving DecidableEq

/-- The headers computed by `compress_pdf` on success. -/
structure CompressionOutcome where
  methodUsed : CompressMethod
  originalSize : Nat
  resultSize : Nat
  ratioPercent : ℚ
  deriving DecidableEq

/-- `compression_ratio = (1 - compressed_size / original_size) * 100`
(line 476), on exact rationals. -/
def compressionRatio (originalSize resultSize : Nat) : ℚ :=
  (1 - (resultSize : ℚ) / (originalSize : ℚ)) * 100

/-- The control flow of `compress_pdf` (lines 465–494): try Ghostscript;
on any failure fall back to PyPDF2; raise only when both fail.  The sizes
of the two possible output files are collaborator inputs. -/
def compress_pdf (e : GsEnv) (pypdfSucceeds : Bool)
    (originalSize gsOutputSize pypdfOutputSize : Nat) :
    Except CompressError CompressionOutcome :=
  if compress_with_ghostscript e then
    .ok ⟨.ghostscript, originalSize, gsOutputSize, compressionRatio originalSize gsOutputSize⟩
  else if compress_with_pypdf2 pypdfSucceeds then
    .ok ⟨.pypdf2, originalSize, pypdfOutputSize, compressionRatio originalSize pypdfOutputSize⟩
  else .error .compressionFailed

/-! ## Helper lemmas -/

/-- A successful run of the token loop returns exactly the per-token
expansions, empty tokens skipped, in token order. -/
theorem parseGroupsAux_ok_eq (l : List (List Char)) (gs : List (String × List Int))
    (h : parseGroupsAux l = .ok gs) :
    gs = l.filterMap (fun t => if t = [] then none else (parseTok t).toOption) := by
  induction l generalizing gs with
  | nil =>
    simp only [parseGroupsAux] at h
    cases h
    rfl
  | cons t rest ih =>
    by_cases ht : t = []
    · subst ht
      simp only [parseGroupsAux, if_pos rfl] at h
      simpa [List.filterMap_cons] using ih gs h
    · rw [parseGroupsAux, if_neg ht] at h
      cases hp : parseTok t with
      | error e => rw [hp] at h; cases h
      | ok g =>
        rw [hp] at h
        cases hr : parseGroupsAux rest with
        | error e => rw [hr] at h; cases h
        | ok gs2 =>
          rw [hr] at h
          cases h
          simp [List.filterMap_cons, ht, hp, Except.toOption, ih gs2 hr]

/-- The token loop succeeds exactly when every nonempty token parses. -/
theorem parseGroupsAux_ok_iff (l : List (List Char)) :
    (∃ gs, parseGroupsAux l = .ok gs) ↔
      ∀ t ∈ l, t ≠ [] → ∃ g, parseTok t = .ok g := by
  induction l with
  | nil => simp [parseGroupsAux]
  | cons t rest ih =>
    by_cases ht : t = []
    · subst ht
      simpa [parseGroupsAux] using ih
    · rw [parseGroupsAux, if_neg ht]
      cases hp : parseTok t with
      | error e =>
        simp only [List.mem_cons]
        constructor
        · rintro ⟨gs, hgs⟩; cases hgs
        · intro hall
          rcases hall t (Or.inl rfl) ht with ⟨g, hg⟩
          rw [hp] at hg; cases hg
      | ok g =>
        cases hr : parseGroupsAux rest with
        | error e =>
          simp only [List.mem_cons]
          constructor
          · rintro ⟨gs, hgs⟩; cases hgs
          · intro hall
            have : ∃ gs, parseGroupsAux rest = .ok gs := by
              rw [ih]; intro u hu hne; exact hall u (Or.inr hu) hne
            rcases this with ⟨gs, hgs⟩
            rw [hr] at hgs; cases hgs
        | ok gs2 =>
          simp only [List.mem_cons]
          constructor
          · intro _ u hu hne
            rcases hu with rfl | hu
            · exact ⟨g, hp⟩
            · have : ∃ gs, parseGroupsAux rest = .ok gs := ⟨gs2, hr⟩
              rw [ih] at this
              exact this u hu hne
          · intro _; exact ⟨g :: gs2, rfl⟩

/-- The parser's per-token accept set coincides with the specification's
token grammar. -/
theorem parseTok_ok_iff (t : List Char) :
    (∃ g, parseTok t = .ok g) ↔ specValidToken t = true := by
  unfold parseTok specValidToken
  by_cases hd : t.contains '-'
  · rw [if_pos hd, if_pos hd]
    cases hs : splitOnChar '-' t with
    | nil => simp
    | cons a rest =>
      cases rest with
      | nil => simp
      | cons b rest2 =>
        cases rest2 with
        | nil =>
          dsimp only
          cases hx : pyInt a with
          | none => simp
          | some x =>
            cases hy : pyInt b with
            | none => simp
            | some y =>
              dsimp only
              by_cases hlow : x < 1 ∨ y < 1
              · rw [if_pos hlow]
                constructor
                · rintro ⟨g, hg⟩; cases hg
                · intro hval
                  simp only [Bool.and_eq_true, decide_eq_true_eq] at hval
                  omega
              · rw [if_neg hlow]
                by_cases hgt : x > y
                · rw [if_pos hgt]
                  constructor
                  · rintro ⟨g, hg⟩; cases hg
                  · intro hval
                    simp only [Bool.and_eq_true, decide_eq_true_eq] at hval
                    omega
                · rw [if_neg hgt]
                  constructor
                  · intro _
                    simp only [Bool.and_eq_true, decide_eq_true_eq]
                    omega
                  · intro _; exact ⟨_, rfl⟩
        | cons c rest3 => simp
  · rw [if_neg hd, if_neg hd]
    cases hn : pyInt t with
    | none => simp
    | some n =>
      dsimp only
      by_cases h1 : n < 1
      · rw [if_pos h1]
        constructor
        · rintro ⟨g, hg⟩; cases hg
        · intro hval
          simp only [decide_eq_true_eq] at hval
          omega
      · rw [if_neg h1]
        constructor
        · intro _
          simp only [decide_eq_true_eq]
          omega
        · intro _; exact ⟨_, rfl⟩

/-- Per group, the extraction loop's surviving index lists are the
specification's filtered, nonempty index sets, in order. -/
theorem splitOutputs_map_snd (tp : Int) (gs : List (String × List Int)) :
    (splitOutputs tp gs).map (fun o => o.2) = specFilteredIndexSets tp gs := by
  induction gs with
  | nil => rfl
  | cons g rest ih =>
    by_cases hv : g.2.filter (inRange tp) = []
    · have h1 : splitOutputs tp (g :: rest) = splitOutputs tp rest := by
        unfold splitOutputs
        rw [List.filterMap_cons]
        dsimp only
        rw [if_pos hv]
      have h2 : specFilteredIndexSets tp (g :: rest) = specFilteredIndexSets tp rest := by
        unfold specFilteredIndexSets
        rw [List.map_cons, List.filter_cons, hv]
        simp
      rw [h1, h2]
      exact ih
    · have h1 : splitOutputs tp (g :: rest) =
          (outputFilename ((g.2.filter (inRange tp)).map (fun i => i + 1)),
            g.2.filter (inRange tp)) :: splitOutputs tp rest := by
        unfold splitOutputs
        rw [List.filterMap_cons]
        dsimp only
        rw [if_neg hv]
      have h2 : specFilteredIndexSets tp (g :: rest) =
          g.2.filter (inRange tp) :: specFilteredIndexSets tp rest := by
        unfold specFilteredIndexSets
        rw [List.map_cons, List.filter_cons, if_pos (by simp [List.isEmpty_iff, hv])]
      rw [h1, h2, List.map_cons, ih]

/-- Membership in a stepped Python range. -/
theorem pyRangeStep_mem (stop step v : Nat) (hstep : 0 < step) :
    v ∈ pyRangeStep stop step ↔ ∃ k, v = k * step ∧ v < stop := by
  unfold pyRangeStep
  simp only [List.mem_map, List.mem_range]
  constructor
  · rintro ⟨k, hk, rfl⟩
    refine ⟨k, rfl, ?_⟩
    rw [Nat.lt_iff_add_one_le, Nat.le_div_iff_mul_le hstep, Nat.succ_mul] at hk
    omega
  · rintro ⟨k, rfl, hlt⟩
    refine ⟨k, ?_, rfl⟩
    rw [Nat.lt_iff_add_one_le, Nat.le_div_iff_mul_le hstep, Nat.succ_mul]
    omega

/-- On nonnegative rationals, Python truncation is the floor. -/
theorem ratTrunc_eq_floor (q : ℚ) (hq : 0 ≤ q) : ratTrunc q = ⌊q⌋ := by
  unfold ratTrunc
  rw [Int.tdiv_eq_ediv (Rat.num_nonneg.mpr hq) (by positivity)]
  conv_rhs => rw [← Rat.num_div_den q]
  rw [Rat.floor_intCast_div_natCast]

/-- Truncation of a nonnegative rational does not exceed it. -/
theorem ratTrunc_le (q : ℚ) (hq : 0 ≤ q) : (ratTrunc q : ℚ) ≤ q := by
  rw [ratTrunc_eq_floor q hq]
  exact Int.floor_le q

/-- Truncation of a nonnegative rational is nonnegative. -/
theorem ratTrunc_nonneg (q : ℚ) (hq : 0 ≤ q) : 0 ≤ ratTrunc q := by
  rw [ratTrunc_eq_floor q hq]
  exact Int.floor_nonneg.mpr hq

/-- Truncation is monotone on nonnegative rationals. -/
theorem ratTrunc_mono (a b : ℚ) (ha : 0 ≤ a) (hab : a ≤ b) :
    ratTrunc a ≤ ratTrunc b := by
  rw [ratTrunc_eq_floor a ha, ratTrunc_eq_floor b (le_trans ha hab)]
  exact Int.floor_mono hab

/-- Concrete evaluation rule for truncation of a nonnegative rational. -/
theorem ratTrunc_eq_of_nonneg (q : ℚ) (z : Int) (h0 : 0 ≤ q)
    (hle : (z : ℚ) ≤ q) (hlt : q < z + 1) : ratTrunc q = z := by
  rw [ratTrunc_eq_floor q h0]
  exact Int.floor_eq_iff.mpr ⟨hle, hlt⟩

/-- Each member of the extraction output comes from a parsed group: its
indices are that group's in-range indices (nonempty), and its file name is
computed from those surviving indices shifted back to 1-based numbers. -/
theorem splitOutputs_mem (tp : Int) (gs : List (String × List Int))
    (o : String × List Int) (ho : o ∈ splitOutputs tp gs) :
    ∃ g ∈ gs, o.2 = g.2.filter (inRange tp) ∧ o.2 ≠ [] ∧
      o.1 = outputFilename (o.2.map (fun i => i + 1)) := by
  unfold splitOutputs at ho
  rw [List.mem_filterMap] at ho
  rcases ho with ⟨g, hg, hfg⟩
  dsimp only at hfg
  by_cases hv : g.2.filter (inRange tp) = []
  · rw [if_pos hv] at hfg; cases hfg
  · rw [if_neg hv] at hfg
    cases hfg
    exact ⟨g, hg, rfl, hv, rfl⟩

/-! ## Claim theorems -/

/-- Claim C1: for every selector string, parsing expands each
comma-separated token in left-to-right order — a bare integer `n` yields a
group labelled `page_{n}` with indices `[n-1]`, a range `a-b` yields a
group labelled `pages_{a}-{b}` with the indices from `a-1` to `b-1`
inclusive — preserving token order as group order and never deduplicating
repeated tokens; in particular `"1,3,5-10"` yields exactly the groups
`[0]`, `[2]`, `[4,5,6,7,8,9]` in that order. -/
theorem split_pdf_token_expansion_c1 :
    (∀ (s : String) (gs : List (String × List Int)), parsePages s = .ok gs →
        gs = ((splitOnChar ',' s.data).map stripChars).filterMap
          (fun t => if t = [] then none else (parseTok t).toOption))
  ∧ (∀ (t : List Char) (n : Int), t.contains '-' = false → pyInt t = some n →
        1 ≤ n → parseTok t = .ok (s!"page_{n}", [n - 1]))
  ∧ (∀ (t a b : List Char) (x y : Int), t.contains '-' = true →
        splitOnChar '-' t = [a, b] → pyInt a = some x → pyInt b = some y →
        1 ≤ x → x ≤ y →
        parseTok t = .ok (s!"pages_{x}-{y}", pyRangeInt (x - 1) y))
  ∧ (∀ x y i : Int, i ∈ pyRangeInt (x - 1) y ↔ x - 1 ≤ i ∧ i < y)
  ∧ parsePages "1,3,5-10" =
      .ok [("page_1", [0]), ("page_3", [2]), ("pages_5-10", [4, 5, 6, 7, 8, 9])]
  ∧ parsePages "2,2" = .ok [("page_2", [1]), ("page_2", [1])] := by
  refine ⟨?_, ?_, ?_, ?_, rfl, rfl⟩
  · intro s gs h
    unfold parsePages at h
    by_cases hstrip : stripChars s.data = []
    · rw [if_pos hstrip] at h; cases h
    · rw [if_neg hstrip] at h
      cases hr : parseGroupsAux ((splitOnChar ',' s.data).map stripChars) with
      | error e => rw [hr] at h; cases h
      | ok gs2 =>
        rw [hr] at h
        cases gs2 with
        | nil => cases h
        | cons g2 rest2 =>
          cases h
          exact parseGroupsAux_ok_eq _ _ hr
  · intro t n hd hn h1
    unfold parseTok
    rw [if_neg (by rw [hd]; simp)]
    rw [hn]
    dsimp only
    rw [if_neg (by omega)]
  · intro t a b x y hd hs hx hy h1 hxy
    unfold parseTok
    rw [if_pos hd, hs]
    dsimp only
    rw [hx, hy]
    dsimp only
    rw [if_neg (by omega), if_neg (by omega)]
  · intro x y i
    unfold pyRangeInt
    constructor
    · intro hmem
      rw [List.mem_map] at hmem
      rcases hmem with ⟨k, hk, hstep⟩
      rw [List.mem_range] at hk
      omega
    · intro hrange
      rw [List.mem_map]
      refine ⟨(i - (x - 1)).toNat, ?_, ?_⟩
      · rw [List.mem_range]
        omega
      · omega

/-- Witness for C1 at the concrete selector `"2,2"`. -/
theorem split_pdf_token_expansion_c1_witness :
    parsePages "2,2" = .ok [("page_2", [1]), ("page_2", [1])] :=
  split_pdf_token_expansion_c1.2.2.2.2.2

/-- Claim C3 counterexample: the selector `","` is neither empty nor
whitespace-only, and it has no nonempty comma-token at all, so none of the
claim's `InvalidSelector` conditions hold — yet parsing does not succeed:
it fails with the zero-groups (`NoValidPages`-style) error. -/
theorem split_pdf_selector_validity_c3_counterexample :
    stripChars ("," : String).data ≠ [] ∧
    (splitOnChar ',' ("," : String).data).map stripChars = [[], []] ∧
    parsePages "," = .error .noValidGroups := by
  refine ⟨by decide, rfl, rfl⟩

/-- Claim C3 (amended): parsing succeeds exactly when the selector is not
empty or whitespace-only, at least one comma-token is nonempty after
stripping, and every nonempty token is a bare positive integer or a
`start-end` pair of positive integers with `start ≤ end`; a selector
whose tokens are all empty (e.g. `","`) fails with the zero-groups error
rather than an invalid-token error, and the remaining failures are as the
claim states them. -/
theorem split_pdf_selector_validity_c3 (s : String) :
    ((∃ gs, parsePages s = .ok gs) ↔
        (stripChars s.data ≠ [] ∧
         (∃ t ∈ (splitOnChar ',' s.data).map stripChars, t ≠ []) ∧
         (∀ t ∈ (splitOnChar ',' s.data).map stripChars, t ≠ [] →
            specValidToken t = true)))
  ∧ (stripChars s.data = [] → parsePages s = .error .noPagesSpecified)
  ∧ parsePages "" = .error .noPagesSpecified
  ∧ parsePages "   " = .error .noPagesSpecified
  ∧ parsePages "5-2" = .error (.startGreaterThanEnd ['5', '-', '2'])
  ∧ parsePages "0" = .error (.pageNumberBelowOneSingle ['0']) := by
  refine ⟨?_, ?_, rfl, rfl, rfl, rfl⟩
  · constructor
    · rintro ⟨gs, hgs⟩
      unfold parsePages at hgs
      by_cases hstrip : stripChars s.data = []
      · rw [if_pos hstrip] at hgs; cases hgs
      · rw [if_neg hstrip] at hgs
        have hex : ∃ gs2, parseGroupsAux ((splitOnChar ',' s.data).map stripChars) = .ok gs2 := by
          cases hr : parseGroupsAux ((splitOnChar ',' s.data).map stripChars) with
          | error e => rw [hr] at hgs; cases hgs
          | ok gs2 => exact ⟨gs2, rfl⟩
        refine ⟨hstrip, ?_, ?_⟩
        · rcases hex with ⟨gs2, hr⟩
          rw [hr] at hgs
          cases gs2 with
          | nil => cases hgs
          | cons g2 rest2 =>
            have heq := parseGroupsAux_ok_eq _ _ hr
            by_contra hall
            push_neg at hall
            have hnil : ((splitOnChar ',' s.data).map stripChars).filterMap
                (fun t => if t = [] then none else (parseTok t).toOption) = [] := by
              rw [List.filterMap_eq_nil_iff]
              intro t ht
              rw [if_pos (hall t ht)]
            rw [hnil] at heq
            cases heq
        · intro t ht hne
          rw [parseGroupsAux_ok_iff] at hex
          rw [← parseTok_ok_iff]
          exact hex t ht hne
    · rintro ⟨hstrip, ⟨t0, ht0, hne0⟩, hval⟩
      unfold parsePages
      rw [if_neg hstrip]
      have hex : ∃ gs2, parseGroupsAux ((splitOnChar ',' s.data).map stripChars) = .ok gs2 := by
        rw [parseGroupsAux_ok_iff]
        intro t ht hne
        rw [parseTok_ok_iff]
        exact hval t ht hne
      rcases hex with ⟨gs2, hgs2⟩
      rw [hgs2]
      cases gs2 with
      | cons g2 rest2 => exact ⟨_, rfl⟩
      | nil =>
        exfalso
        have heq := parseGroupsAux_ok_eq _ _ hgs2
        have hnone := (List.filterMap_eq_nil_iff.mp heq.symm) t0 ht0
        rw [if_neg hne0] at hnone
        have := (parseTok_ok_iff t0).mpr ((parseTok_ok_iff t0).mp ?_)
        · rcases (parseTok_ok_iff t0).mpr (hval t0 ht0 hne0) with ⟨g, hg⟩
          rw [hg] at hnone
          cases hnone
        · exact (parseTok_ok_iff t0).mpr (hval t0 ht0 hne0)
  · intro hstrip
    unfold parsePages
    rw [if_pos hstrip]

/-- Witness for C3 at the concrete selector `"1,2"`. -/
theorem split_pdf_selector_validity_c3_witness :
    ∃ gs, parsePages "1,2" = .ok gs :=
  (split_pdf_selector_validity_c3 "1,2").1.mpr
    ⟨by decide, ⟨['1'], by decide, by decide⟩, by decide⟩

/-- Claim C4: for every well-formed selector and page count, the
range-filtering pass keeps, per group, exactly the indices inside
`[0, totalPages)`, drops groups left empty, and the pipeline fails with
the no-pages-extracted (`NoValidPages`) error exactly when no non-empty
group remains; `"1-10"` against 3 pages keeps one group `[0,1,2]`, and
`"99"` against 3 pages fails. -/
theorem split_pdf_range_filter_c4 :
    (∀ (s : String) (tp : Int) (gs : List (String × List Int)),
        parsePages s = .ok gs →
        ((split_pdf s tp = .error .noPagesExtracted ↔
            specFilteredIndexSets tp gs = [])
         ∧ (∀ outs, split_pdf s tp = .ok outs →
              outs.map (fun o => o.2) = specFilteredIndexSets tp gs
              ∧ ∀ o ∈ outs, o.2 ≠ [] ∧ ∀ i ∈ o.2, 0 ≤ i ∧ i < tp)))
  ∧ (∃ outs, split_pdf "1-10" 3 = .ok outs ∧
        outs.map (fun o => o.2) = [[0, 1, 2]])
  ∧ split_pdf "99" 3 = .error .noPagesExtracted := by
  refine ⟨?_, ⟨[("pages_1-3.pdf", [0, 1, 2])], rfl, rfl⟩, rfl⟩
  intro s tp gs h
  unfold split_pdf
  rw [h]
  dsimp only
  cases hso : splitOutputs tp gs with
  | nil =>
    constructor
    · constructor
      · intro _
        rw [← splitOutputs_map_snd, hso]
        rfl
      · intro _; rfl
    · intro outs houts; cases houts
  | cons o os =>
    constructor
    · constructor
      · intro hbad; cases hbad
      · intro hspec
        rw [← splitOutputs_map_snd, hso] at hspec
        cases hspec
    · intro outs houts
      cases houts
      constructor
      · rw [← splitOutputs_map_snd, hso]
      · intro o2 ho2
        rw [← hso] at ho2
        rcases splitOutputs_mem tp gs o2 ho2 with ⟨g, _, hfilter, hne, _⟩
        refine ⟨hne, ?_⟩
        intro i hi
        rw [hfilter, List.mem_filter] at hi
        have := hi.2
        unfold inRange at this
        simp only [Bool.and_eq_true, decide_eq_true_eq] at this
        exact this

/-- Witness for C4 at the selector `"1"` on a 1-page document. -/
theorem split_pdf_range_filter_c4_witness :
    ([("page_1.pdf", [0])] : List (String × List Int)).map (fun o => o.2) =
      specFilteredIndexSets 1 [("page_1", [0])] ∧
    ∀ o ∈ ([("page_1.pdf", [0])] : List (String × List Int)),
      o.2 ≠ [] ∧ ∀ i ∈ o.2, 0 ≤ i ∧ i < 1 :=
  (split_pdf_range_filter_c4.1 "1" 1 [("page_1", [0])] rfl).2
    [("page_1.pdf", [0])] rfl

/-- Claim C10: each output file of `split_pdf` is named from the
*surviving* valid pages of its group, not from the parse-time group label:
one surviving page `n` gives `page_{n}.pdf`, several give
`pages_{first}-{last}.pdf` from the first and last surviving 1-based page
numbers; so `"1-10"` on a 3-page document produces `pages_1-3.pdf`, not
`pages_1-10.pdf`. -/
theorem split_pdf_output_naming_c10 :
    (∀ (tp : Int) (gs : List (String × List Int)) (o : String × List Int),
        o ∈ splitOutputs tp gs →
        ∃ g ∈ gs, o.2 = g.2.filter (inRange tp) ∧ o.2 ≠ [] ∧
          o.1 = outputFilename (o.2.map (fun i => i + 1)))
  ∧ (∀ v : List Int, v.length = 1 → outputFilename v = s!"page_{v.headD 0}.pdf")
  ∧ (∀ v : List Int, 2 ≤ v.length →
        outputFilename v = s!"pages_{v.headD 0}-{v.getLastD 0}.pdf")
  ∧ split_pdf "1-10" 3 = .ok [("pages_1-3.pdf", [0, 1, 2])]
  ∧ ("pages_1-3.pdf" : String) ≠ "pages_1-10.pdf" := by
  refine ⟨splitOutputs_mem, ?_, ?_, rfl, by decide⟩
  · intro v hv
    cases v with
    | nil => cases hv
    | cons p rest =>
      cases rest with
      | nil => rfl
      | cons q rest2 => simp at hv
  · intro v hv
    cases v with
    | nil => cases hv
    | cons p rest =>
      cases rest with
      | nil => simp at hv
      | cons q rest2 =>
        rw [List.headD_cons, List.getLastD_cons]
        rfl

/-- Witness for C10: the concrete `"1-10"` on 3 pages. -/
theorem split_pdf_output_naming_c10_witness :
    split_pdf "1-10" 3 = .ok [("pages_1-3.pdf", [0, 1, 2])] :=
  split_pdf_output_naming_c10.2.2.2.1

/-- Claim C5: non-tile watermark placement uses a fixed margin of 50
pixels: `center` places at half the free space (Python floor division by
2), `topLeft` at `(50, 50)`, `topRight` at `(W - w - 50, 50)`,
`bottomLeft` at `(50, H - h - 50)`, `bottomRight` at
`(W - w - 50, H - h - 50)`; for a 600×800 page and 200×100 content,
`center` gives `(200, 350)`. -/
theorem add_watermark_placement_c5 (w h cw ch : Int)
    (hw : 0 < w) (hh : 0 < h) (hcw : 0 < cw) (hch : 0 < ch) :
    (∃ x y, placementXY w h cw ch .center = some (x, y) ∧
        2 * x ≤ w - cw ∧ w - cw < 2 * x + 2 ∧
        2 * y ≤ h - ch ∧ h - ch < 2 * y + 2)
  ∧ placementXY w h cw ch .topLeft = some (50, 50)
  ∧ placementXY w h cw ch .topRight = some (w - cw - 50, 50)
  ∧ placementXY w h cw ch .bottomLeft = some (50, h - ch - 50)
  ∧ placementXY w h cw ch .bottomRight = some (w - cw - 50, h - ch - 50)
  ∧ placementXY 600 800 200 100 .center = some (200, 350) := by
  refine ⟨⟨(w - cw).fdiv 2, (h - ch).fdiv 2, rfl, ?_, ?_, ?_, ?_⟩,
    rfl, rfl, rfl, rfl, by decide⟩
  all_goals rw [Int.fdiv_eq_ediv _ (by omega)]
  all_goals omega

/-- Witness for C5 at the claim's concrete page and content size. -/
theorem add_watermark_placement_c5_witness :
    placementXY 600 800 200 100 .center = some (200, 350) :=
  (add_watermark_placement_c5 600 800 200 100 (by decide) (by decide)
    (by decide) (by decide)).2.2.2.2.2

/-- Claim C6 counterexample: with a 300×300 page, 100×100 text content and
gap 100 (spacing 200), the emitted boxes extended by the content size do
NOT cover the page: the in-page point `(150, 150)` lies in none of them —
the spacing leaves a 100-pixel uncovered band between tiles. -/
theorem add_watermark_tile_c6_counterexample :
    (0 : Nat) < 100 ∧ (150 : Nat) < 300 ∧
    ∀ xy ∈ tileOrigins 300 300 100 100 100,
      ¬(xy.1 ≤ 150 ∧ 150 < xy.1 + 100 ∧ xy.2 ≤ 150 ∧ 150 < xy.2 + 100) := by
  decide

/-- Claim C6 (amended): the tile pass emits a box exactly at each
`(col*sx, row*sy)` with `sx = contentWidth + G`, `sy = contentHeight + G`
while `col*sx < pageWidth + sx` and `row*sy < pageHeight + sy` (`G` = 100
for text, 50 for images); the grid overshoots each edge, and every point
of the page lies in some grid cell — i.e. within one spacing (content
size **plus gap**), not within content size, of an emitted origin: the
boxes themselves leave gap-wide uncovered bands between tiles. -/
theorem add_watermark_tile_c6 (w h cw ch gap : Nat)
    (hcw : 0 < cw) (hch : 0 < ch) :
    (∀ x y : Nat, (x, y) ∈ tileOrigins w h cw ch gap ↔
        ((∃ c, x = c * (cw + gap)) ∧ (∃ r, y = r * (ch + gap)) ∧
         x < w + (cw + gap) ∧ y < h + (ch + gap)))
  ∧ (∀ px py : Nat, px < w → py < h →
        ∃ x y : Nat, (x, y) ∈ tileOrigins w h cw ch gap ∧
          x ≤ px ∧ px < x + (cw + gap) ∧ y ≤ py ∧ py < y + (ch + gap))
  ∧ textTileOrigins w h cw ch = tileOrigins w h cw ch 100
  ∧ imageTileOrigins w h cw ch = tileOrigins w h cw ch 50 := by
  have hsx : 0 < cw + gap := by omega
  have hsy : 0 < ch + gap := by omega
  refine ⟨?_, ?_, rfl, rfl⟩
  · intro x y
    unfold tileOrigins
    simp only [List.mem_flatMap, List.mem_map]
    constructor
    · rintro ⟨row, hrow, col, hcol, hpair⟩
      rw [pyRangeStep_mem _ _ _ hsy] at hrow
      rw [pyRangeStep_mem _ _ _ hsx] at hcol
      rcases hrow with ⟨r, rfl, hrlt⟩
      rcases hcol with ⟨c, rfl, hclt⟩
      cases hpair
      exact ⟨⟨c, rfl⟩, ⟨r, rfl⟩, hclt, hrlt⟩
    · rintro ⟨⟨c, rfl⟩, ⟨r, rfl⟩, hx, hy⟩
      refine ⟨r * (ch + gap), ?_, c * (cw + gap), ?_, rfl⟩
      · rw [pyRangeStep_mem _ _ _ hsy]
        exact ⟨r, rfl, hy⟩
      · rw [pyRangeStep_mem _ _ _ hsx]
        exact ⟨c, rfl, hx⟩
  · intro px py hpx hpy
    have hxle : px / (cw + gap) * (cw + gap) ≤ px := Nat.div_mul_le_self px (cw + gap)
    have hyle : py / (ch + gap) * (ch + gap) ≤ py := Nat.div_mul_le_self py (ch + gap)
    have hxlt : px < px / (cw + gap) * (cw + gap) + (cw + gap) := by
      calc px = px / (cw + gap) * (cw + gap) + px % (cw + gap) :=
            (Nat.div_add_mod' px (cw + gap)).symm
        _ < px / (cw + gap) * (cw + gap) + (cw + gap) :=
            Nat.add_lt_add_left (Nat.mod_lt px hsx) _
    have hylt : py < py / (ch + gap) * (ch + gap) + (ch + gap) := by
      calc py = py / (ch + gap) * (ch + gap) + py % (ch + gap) :=
            (Nat.div_add_mod' py (ch + gap)).symm
        _ < py / (ch + gap) * (ch + gap) + (ch + gap) :=
            Nat.add_lt_add_left (Nat.mod_lt py hsy) _
    refine ⟨px / (cw + gap) * (cw + gap), py / (ch + gap) * (ch + gap),
      ?_, hxle, hxlt, hyle, hylt⟩
    unfold tileOrigins
    simp only [List.mem_flatMap, List.mem_map]
    refine ⟨py / (ch + gap) * (ch + gap), ?_, px / (cw + gap) * (cw + gap), ?_, rfl⟩
    · rw [pyRangeStep_mem _ _ _ hsy]
      exact ⟨py / (ch + gap), rfl, Nat.lt_of_le_of_lt hyle (by omega)⟩
    · rw [pyRangeStep_mem _ _ _ hsx]
      exact ⟨px / (cw + gap), rfl, Nat.lt_of_le_of_lt hxle (by omega)⟩

/-- Witness for C6: grid-cell coverage of the point `(150, 150)` on a
300×300 page with 100×100 content and gap 100. -/
theorem add_watermark_tile_c6_witness :
    ∃ x y : Nat, (x, y) ∈ tileOrigins 300 300 100 100 100 ∧
      x ≤ 150 ∧ 150 < x + 200 ∧ y ≤ 150 ∧ 150 < y + 200 :=
  (add_watermark_tile_c6 300 300 100 100 100 (by decide) (by decide)).2.1
    150 150 (by decide) (by decide)

/-- Claim C7 counterexample: the code truncates `max_width` to an integer
(`int(img_width * 0.3)`), so for a 601-wide page the computed ratio is
`180/1000 = 0.18`, not `min(180.3/1000, …) = 0.1803` as the claim's exact
`maxWidth = 0.3 × pageWidth` formula predicts; the divergence is
observable in the scaled height (18000 vs 18030). -/
theorem add_watermark_scale_c7_counterexample :
    imageRatio 601 10000 1000 100 ≠
      min (min (((601 : ℚ) * (3 / 10)) / 1000) (((10000 : ℚ) * (3 / 10)) / 100)) 1
  ∧ imageNewHeight 601 1000000 1000 100000 = 18000
  ∧ ratTrunc ((100000 : ℚ) *
      min (min (((601 : ℚ) * (3 / 10)) / 1000)
               (((1000000 : ℚ) * (3 / 10)) / 100000)) 1) = 18030 := by
  have hw601 : imageMaxWidth 601 = 180 := by
    unfold imageMaxWidth
    apply ratTrunc_eq_of_nonneg <;> norm_num
  have hh10000 : imageMaxHeight 10000 = 3000 := by
    unfold imageMaxHeight
    apply ratTrunc_eq_of_nonneg <;> norm_num
  have hh1000000 : imageMaxHeight 1000000 = 300000 := by
    unfold imageMaxHeight
    apply ratTrunc_eq_of_nonneg <;> norm_num
  have hcode : imageRatio 601 10000 1000 100 = 9 / 50 := by
    unfold imageRatio
    rw [hw601, hh10000]
    norm_num [min_def]
  have hcode2 : imageRatio 601 1000000 1000 100000 = 9 / 50 := by
    unfold imageRatio
    rw [hw601, hh1000000]
    norm_num [min_def]
  have hclaim : min (min (((601 : ℚ) * (3 / 10)) / 1000)
      (((10000 : ℚ) * (3 / 10)) / 100)) 1 = 1803 / 10000 := by
    norm_num [min_def]
  have hclaim2 : min (min (((601 : ℚ) * (3 / 10)) / 1000)
      (((1000000 : ℚ) * (3 / 10)) / 100000)) 1 = 1803 / 10000 := by
    norm_num [min_def]
  refine ⟨?_, ?_, ?_⟩
  · rw [hcode, hclaim]
    norm_num
  · unfold imageNewHeight
    rw [hcode2]
    apply ratTrunc_eq_of_nonneg <;> norm_num
  · rw [hclaim2]
    apply ratTrunc_eq_of_nonneg <;> norm_num

/-- Claim C7 (amended): the image-watermark scale factor is
`ratio = min(maxWidth/srcWidth, maxHeight/srcHeight, 1.0)` where
`maxWidth = int(0.3 × pageWidth)` and `maxHeight = int(0.3 × pageHeight)`
are truncated to integers; the watermark is never upscaled, only shrunk;
and for `src 1000×500` on a `600×800` page the ratio is `0.18` and the
scaled content is `180 × 90`. -/
theorem add_watermark_scale_c7 (imgW imgH wmW wmH : Nat)
    (h1 : 0 < imgW) (h2 : 0 < imgH) (h3 : 0 < wmW) (h4 : 0 < wmH) :
    imageRatio imgW imgH wmW wmH =
      min (min ((imageMaxWidth imgW : ℚ) / (wmW : ℚ))
               ((imageMaxHeight imgH : ℚ) / (wmH : ℚ))) 1
  ∧ imageRatio imgW imgH wmW wmH ≤ 1
  ∧ 0 ≤ imageRatio imgW imgH wmW wmH
  ∧ imageNewWidth imgW imgH wmW wmH ≤ (wmW : Int)
  ∧ imageNewHeight imgW imgH wmW wmH ≤ (wmH : Int)
  ∧ imageRatio 600 800 1000 500 = 9 / 50
  ∧ imageNewWidth 600 800 1000 500 = 180
  ∧ imageNewHeight 600 800 1000 500 = 90 := by
  have hmw : (0 : ℚ) ≤ (imageMaxWidth imgW : ℚ) := by
    rw [Int.cast_nonneg]
    exact ratTrunc_nonneg _ (by positivity)
  have hmh : (0 : ℚ) ≤ (imageMaxHeight imgH : ℚ) := by
    rw [Int.cast_nonneg]
    exact ratTrunc_nonneg _ (by positivity)
  have hr1 : imageRatio imgW imgH wmW wmH ≤ 1 := min_le_right _ _
  have hr0 : 0 ≤ imageRatio imgW imgH wmW wmH := by
    refine le_min (le_min ?_ ?_) zero_le_one
    · exact div_nonneg hmw (Nat.cast_nonneg _)
    · exact div_nonneg hmh (Nat.cast_nonneg _)
  have hshrink : ∀ n : Nat, ratTrunc ((n : ℚ) * imageRatio imgW imgH wmW wmH) ≤ (n : Int) := by
    intro n
    have harg0 : (0 : ℚ) ≤ (n : ℚ) * imageRatio imgW imgH wmW wmH :=
      mul_nonneg (Nat.cast_nonneg _) hr0
    have harg : (n : ℚ) * imageRatio imgW imgH wmW wmH ≤ (n : ℚ) :=
      mul_le_of_le_one_right (Nat.cast_nonneg _) hr1
    have := le_trans (ratTrunc_le _ harg0) harg
    exact_mod_cast this
  have hw600 : imageMaxWidth 600 = 180 := by
    unfold imageMaxWidth
    apply ratTrunc_eq_of_nonneg <;> norm_num
  have hh800 : imageMaxHeight 800 = 240 := by
    unfold imageMaxHeight
    apply ratTrunc_eq_of_nonneg <;> norm_num
  have hconc : imageRatio 600 800 1000 500 = 9 / 50 := by
    unfold imageRatio
    rw [hw600, hh800]
    norm_num [min_def]
  refine ⟨rfl, hr1, hr0, hshrink wmW, hshrink wmH, hconc, ?_, ?_⟩
  · unfold imageNewWidth
    rw [hconc]
    apply ratTrunc_eq_of_nonneg <;> norm_num
  · unfold imageNewHeight
    rw [hconc]
    apply ratTrunc_eq_of_nonneg <;> norm_num

/-- Witness for C7 at the claim's concrete sizes. -/
theorem add_watermark_scale_c7_witness :
    imageRatio 600 800 1000 500 = 9 / 50 ∧
    imageNewWidth 600 800 1000 500 = 180 ∧
    imageNewHeight 600 800 1000 500 = 90 :=
  ⟨(add_watermark_scale_c7 600 800 1000 500 (by decide) (by decide) (by decide)
      (by decide)).2.2.2.2.2.1,
   (add_watermark_scale_c7 600 800 1000 500 (by decide) (by decide) (by decide)
      (by decide)).2.2.2.2.2.2.1,
   (add_watermark_scale_c7 600 800 1000 500 (by decide) (by decide) (by decide)
      (by decide)).2.2.2.2.2.2.2⟩

/-- Claim C8 counterexample: the code computes the glyph alpha with
`int(255 * opacity)`, which truncates: at opacity `1/2` it yields 127,
while the claim's `round(255 × opacity)` yields 128. -/
theorem add_watermark_alpha_c8_counterexample :
    textAlpha (1 / 2) = 127 ∧ round ((255 : ℚ) * (1 / 2)) = 128 ∧
    textAlpha (1 / 2) ≠ round ((255 : ℚ) * (1 / 2)) := by
  have ht : textAlpha (1 / 2) = 127 := by
    unfold textAlpha
    apply ratTrunc_eq_of_nonneg <;> norm_num
  have hr : round ((255 : ℚ) * (1 / 2)) = 128 := by
    rw [round_eq]
    norm_num
  refine ⟨ht, hr, ?_⟩
  rw [ht, hr]
  decide

/-- Claim C8 (amended): for opacity in `[0,1]` the text glyph alpha is
`int(255 × opacity)` — truncated, not rounded — and an image watermark's
per-pixel alpha `p` becomes `int(p × opacity)`, so a fully opaque pixel
(255) gets exactly the text alpha and a semi-transparent source pixel
becomes proportionally more transparent (monotone in both the source
alpha's opacity scaling and never above the source value). -/
theorem add_watermark_alpha_c8 (opacity : ℚ) (p : Nat)
    (h0 : 0 ≤ opacity) (h1 : opacity ≤ 1) :
    textAlpha opacity = ratTrunc (255 * opacity)
  ∧ imagePixelAlpha opacity 255 = textAlpha opacity
  ∧ 0 ≤ textAlpha opacity
  ∧ textAlpha opacity ≤ 255
  ∧ imagePixelAlpha opacity p ≤ (p : Int)
  ∧ (∀ op2 : ℚ, 0 ≤ op2 → op2 ≤ opacity →
        imagePixelAlpha op2 p ≤ imagePixelAlpha opacity p)
  ∧ textAlpha (1 / 2) = 127 := by
  have h255 : (0 : ℚ) ≤ 255 * opacity := mul_nonneg (by norm_num) h0
  refine ⟨rfl, ?_, ?_, ?_, ?_, ?_, ?_⟩
  · unfold imagePixelAlpha textAlpha
    norm_num
  · exact ratTrunc_nonneg _ h255
  · have hle : (255 : ℚ) * opacity ≤ 255 := mul_le_of_le_one_right (by norm_num) h1
    have := le_trans (ratTrunc_le _ h255) hle
    exact_mod_cast this
  · have harg0 : (0 : ℚ) ≤ (p : ℚ) * opacity := mul_nonneg (Nat.cast_nonneg _) h0
    have harg : (p : ℚ) * opacity ≤ (p : ℚ) :=
      mul_le_of_le_one_right (Nat.cast_nonneg _) h1
    have := le_trans (ratTrunc_le _ harg0) harg
    exact_mod_cast this
  · intro op2 h20 h2le
    unfold imagePixelAlpha
    exact ratTrunc_mono _ _ (mul_nonneg (Nat.cast_nonneg _) h20)
      (mul_le_mul_of_nonneg_left h2le (Nat.cast_nonneg _))
  · unfold textAlpha
    apply ratTrunc_eq_of_nonneg <;> norm_num

/-- Witness for C8 at opacity `1/2`. -/
theorem add_watermark_alpha_c8_witness :
    textAlpha (1 / 2) = 127 :=
  (add_watermark_alpha_c8 (1 / 2) 0 (by norm_num) (by norm_num)).2.2.2.2.2.2

/-- Claim C2: any non-zero exit status, timeout (120-second budget), or
missing-binary condition of the primary (Ghostscript) compressor makes it
report failure, which triggers the PyPDF2 fallback without raising; if
the fallback succeeds the outcome records the fallback method, and
`compress_pdf` fails only when primary and fallback both fail. -/
theorem compress_pdf_fallback_c2 (e : GsEnv) (pypdfSucceeds : Bool)
    (o g p : Nat)
    (hunavail : e.gsInstalled = false ∨ e.gsTimedOut = true ∨
      e.gsExitCode ≠ 0 ∨ e.gsOutputExists = false) :
    gsTimeoutSeconds = 120
  ∧ compress_with_ghostscript e = false
  ∧ (pypdfSucceeds = true →
      compress_pdf e pypdfSucceeds o g p =
        .ok ⟨.pypdf2, o, p, compressionRatio o p⟩)
  ∧ (pypdfSucceeds = false →
      compress_pdf e pypdfSucceeds o g p = .error .compressionFailed)
  ∧ (∀ e2 : GsEnv, ∀ ps2 : Bool,
      compress_pdf e2 ps2 o g p = .error .compressionFailed →
        compress_with_ghostscript e2 = false ∧ ps2 = false) := by
  have hgs : compress_with_ghostscript e = false := by
    unfold compress_with_ghostscript
    rcases hunavail with hi | ht | hc | ho2
    · rw [hi]; rfl
    · rw [ht]
      cases e.gsInstalled <;> rfl
    · cases hi : e.gsInstalled
      · rfl
      · cases ht : e.gsTimedOut
        · simp [hc]
        · rfl
    · rw [ho2]
      cases e.gsInstalled
      · rfl
      · cases e.gsTimedOut
        · simp
        · rfl
  refine ⟨rfl, hgs, ?_, ?_, ?_⟩
  · intro hps
    unfold compress_pdf
    rw [hgs, hps]
    rfl
  · intro hps
    unfold compress_pdf
    rw [hgs, hps]
    rfl
  · intro e2 ps2 hfail
    unfold compress_pdf at hfail
    cases hgs2 : compress_with_ghostscript e2
    · rw [hgs2] at hfail
      cases hps2 : ps2
      · exact ⟨rfl, rfl⟩
      · rw [hps2] at hfail
        exact absurd hfail (by unfold compress_with_pypdf2; simp)
    · rw [hgs2] at hfail
      simp at hfail

/-- Witness for C2: Ghostscript missing, fallback succeeding. -/
theorem compress_pdf_fallback_c2_witness :
    compress_pdf ⟨false, false, 0, false⟩ true 10 9 11 =
      .ok ⟨.pypdf2, 10, 11, compressionRatio 10 11⟩ :=
  (compress_pdf_fallback_c2 ⟨false, false, 0, false⟩ true 10 9 11
    (Or.inl rfl)).2.2.1 rfl

/-- Claim C9: on success the reported ratio is exactly
`(1 - resultSize/originalSize) * 100`, and when the fallback output is
larger than the input the ratio is negative while the operation still
succeeds. -/
theorem compress_pdf_ratio_c9 (e : GsEnv) (ps : Bool) (o g p : Nat)
    (ho : 0 < o) :
    (∀ r, compress_pdf e ps o g p = .ok r →
        r.originalSize = o ∧
        r.ratioPercent = (1 - (r.resultSize : ℚ) / (o : ℚ)) * 100)
  ∧ (compress_with_ghostscript e = false → ps = true → o < p →
      ∃ r, compress_pdf e ps o g p = .ok r ∧
        r.methodUsed = .pypdf2 ∧ r.ratioPercent < 0) := by
  constructor
  · intro r hr
    unfold compress_pdf at hr
    cases hgs : compress_with_ghostscript e
    · rw [hgs] at hr
      cases hps : ps
      · rw [hps] at hr
        exact absurd hr (by unfold compress_with_pypdf2; simp)
      · rw [hps] at hr
        unfold compress_with_pypdf2 at hr
        rw [if_pos rfl] at hr
        cases hr
        exact ⟨rfl, rfl⟩
    · rw [hgs] at hr
      rw [if_pos rfl] at hr
      cases hr
      exact ⟨rfl, rfl⟩
  · intro hgs hps hop
    refine ⟨⟨.pypdf2, o, p, compressionRatio o p⟩, ?_, rfl, ?_⟩
    · unfold compress_pdf
      rw [hgs, hps]
      rfl
    · unfold compressionRatio
      have hoq : (0 : ℚ) < (o : ℚ) := by exact_mod_cast ho
      have hlt : (1 : ℚ) < (p : ℚ) / (o : ℚ) :=
        (one_lt_div hoq).mpr (by exact_mod_cast hop)
      have : (1 : ℚ) - (p : ℚ) / (o : ℚ) < 0 := by linarith
      exact mul_neg_of_neg_of_pos this (by norm_num)

/-- Witness for C9: fallback output (11 bytes) larger than input
(10 bytes) still succeeds, with a negative ratio. -/
theorem compress_pdf_ratio_c9_witness :
    ∃ r, compress_pdf ⟨false, false, 0, false⟩ true 10 9 11 = .ok r ∧
      r.methodUsed = .pypdf2 ∧ r.ratioPercent < 0 :=
  (compress_pdf_ratio_c9 ⟨false, false, 0, false⟩ true 10 9 11
    (by decide)).2 rfl rfl (by decide)
